import Mathlib

/-!
Verification of the duplicate/parallel-subtree detection engine
(`SuperGrok.py`, with the historical variant `Test.py`) against its
natural-language specification.

Modelling conventions (shallow embedding):
* A span is a record of the fields the engine reads: `spanID`,
  `operationName` (already normalized, since `build_span_hierarchy`
  rewrites it in place before any comparison), `startTime` and
  `duration` in microseconds, `processID`, and the `tags` mapping
  (modelled as an association list with distinct keys, standing for the
  Python dict).  Start times are integers; durations are natural
  numbers (microsecond durations of well-formed spans; the ingestion
  boundary delivers spans that carry a duration).
* The derived parent/child hierarchy is acyclic for well-formed input
  (cycles are undefined behaviour for the design), so a span together
  with the hierarchy beneath it is modelled as a finitely branching
  tree `SpanTree`.
* `compare_subtrees` and the clustering loop recurse through the
  hierarchy; in Lean they take an explicit fuel argument that makes the
  recursion structural.  Fuel is a pure termination device: lemmas
  below show the result does not depend on the fuel once it exceeds the
  subtree height (for the comparator) resp. the pool length (for the
  clusterer), and the fuel used by the wrappers always suffices.
* Python's float expression `0.2 * max_duration` is modelled by the
  exact comparison `5 * diff ≤ max_duration`; the two agree on all
  realistic microsecond durations.
* Python string comparison (used as a sort key) is code-point
  lexicographic; `chListLt` is the same order on Lean strings.
-/

/-- Attribute mapping of a span: the Python tags dict, as an
association list with distinct keys. -/
abbrev Tags := List (String × String)

/-- The fields of a span that the detection engine reads. -/
structure SpanData where
  spanID : String
  operationName : String
  startTime : Int
  duration : Nat
  processID : String
  tags : Tags
deriving DecidableEq

/-- A span together with the hierarchy beneath it: the children are the
spans whose first resolvable CHILD_OF reference points at this span, in
insertion order (`hierarchy[parent_id]` in the source). -/
inductive SpanTree where
  | node (data : SpanData) (children : List SpanTree)

mutual
def decEqSpanTree : (a b : SpanTree) → Decidable (a = b)
  | .node d cs, .node d' cs' =>
    match decEq d d', decEqSpanTreeList cs cs' with
    | isTrue h1, isTrue h2 => isTrue (by rw [h1, h2])
    | isFalse h1, _ => isFalse (fun h => by cases h; exact h1 rfl)
    | isTrue _, isFalse h2 => isFalse (fun h => by cases h; exact h2 rfl)
def decEqSpanTreeList : (as bs : List SpanTree) → Decidable (as = bs)
  | [], [] => isTrue rfl
  | [], _ :: _ => isFalse (fun h => by cases h)
  | _ :: _, [] => isFalse (fun h => by cases h)
  | a :: as, b :: bs =>
    match decEqSpanTree a b, decEqSpanTreeList as bs with
    | isTrue h1, isTrue h2 => isTrue (by rw [h1, h2])
    | isFalse h1, _ => isFalse (fun h => by cases h; exact h1 rfl)
    | isTrue _, isFalse h2 => isFalse (fun h => by cases h; exact h2 rfl)
end

instance : DecidableEq SpanTree := decEqSpanTree

/-- The span record at the root of a subtree. -/
def SpanTree.data : SpanTree → SpanData
  | .node d _ => d

/-- The child subtrees (`hierarchy.get(span_id, [])` in the source). -/
def SpanTree.childList : SpanTree → List SpanTree
  | .node _ cs => cs

/-- Source `is_db_span`: the span's tags contain a "db.statement" key. -/
def isDbSpan (x : SpanData) : Bool :=
  x.tags.any fun kv => kv.1 == "db.statement"

/-- `is_db_span` lifted to a subtree's root span. -/
def isDbTree (t : SpanTree) : Bool := isDbSpan t.data

mutual
/-- Source `count_total_spans`: the span itself plus the recursive
total over its children. -/
def countTotalSpans : SpanTree → Nat
  | .node _ cs => 1 + countListSpans cs
def countListSpans : List SpanTree → Nat
  | [] => 0
  | t :: ts => countTotalSpans t + countListSpans ts
end

mutual
/-- Source `get_max_depth` (inside `compare_subtrees`): 0 at a leaf,
otherwise one more than the maximum child depth. -/
def getMaxDepth : SpanTree → Nat
  | .node _ [] => 0
  | .node _ (c :: cs) => 1 + depthListMax (c :: cs)
def depthListMax : List SpanTree → Nat
  | [] => 0
  | c :: cs => max (getMaxDepth c) (depthListMax cs)
end

/-- Code-point lexicographic order on character lists: exactly Python's
`<` on the corresponding strings. -/
def chListLt : List Char → List Char → Bool
  | [], [] => false
  | [], _ :: _ => true
  | _ :: _, [] => false
  | c :: cs, d :: ds =>
    if c.toNat < d.toNat then true
    else if d.toNat < c.toNat then false
    else chListLt cs ds

/-- Python string `<` (code-point lexicographic). -/
def strLt (a b : String) : Bool := chListLt a.data b.data

/-- Whether the first character list begins with the second. -/
def chListStarts : List Char → List Char → Bool
  | _, [] => true
  | [], _ :: _ => false
  | c :: cs, d :: ds => decide (c = d) && chListStarts cs ds

/-- Python `s.startswith(pre)`. -/
def strStarts (s pre : String) : Bool := chListStarts s.data pre.data

/-- Insert into a sorted list, placing the new element before the first
strictly greater one: the stable insertion used by `sortStable`. -/
def insertLe (le : SpanTree → SpanTree → Bool) (t : SpanTree) : List SpanTree → List SpanTree
  | [] => [t]
  | u :: us => if le t u then t :: u :: us else u :: insertLe le t us

/-- Stable insertion sort; with `le x y := ¬(key y < key x)` this is
Python's stable `sorted` by that key. -/
def sortStable (le : SpanTree → SpanTree → Bool) : List SpanTree → List SpanTree
  | [] => []
  | t :: ts => insertLe le t (sortStable le ts)

/-- Sort key for child lists: `sorted(children, key=operationName)`. -/
def opNameLe (a b : SpanTree) : Bool :=
  !(strLt b.data.operationName a.data.operationName)

/-- Source: `sorted(hierarchy.get(span_id, []), key=operationName)`. -/
def sortByOperationName : List SpanTree → List SpanTree :=
  sortStable opNameLe

/-- Sort key for sibling pools: `sorted(spans, key=startTime)`. -/
def startTimeLe (a b : SpanTree) : Bool :=
  decide (a.data.startTime ≤ b.data.startTime)

/-- Source: `sorted(spans, key=lambda x: x["startTime"])`. -/
def sortByStartTime : List SpanTree → List SpanTree :=
  sortStable startTimeLe

/-- The two configurable tolerances of `SuperGrok.py` (microseconds):
`start_difference` and `gap_difference`; either may be negative, as the
command line converts an arbitrary float. -/
structure Config where
  startDifference : Int
  gapDifference : Int
deriving DecidableEq

/-- The default tolerances of the source: 500 ms start difference and
150 ms gap difference. -/
def defaultTolerances : Config := ⟨500000, 150000⟩

/-- End of the half-open interval of a span: `startTime + duration`. -/
def endTime (x : SpanData) : Int := x.startTime + (x.duration : Int)

/-- Source gap check (inside `compare_subtrees`, depth 0): fails when
one interval ends strictly before the other starts and, with a
nonnegative gap tolerance, the gap exceeds it. -/
def gapCheckFails (cfg : Config) (x y : SpanData) : Bool :=
  if endTime x < y.startTime then
    decide (0 ≤ cfg.gapDifference) && decide (cfg.gapDifference < y.startTime - endTime x)
  else if endTime y < x.startTime then
    decide (0 ≤ cfg.gapDifference) && decide (cfg.gapDifference < x.startTime - endTime y)
  else false

/-- Source strict-overlap check: with a negative gap tolerance the
intervals must overlap by at least its absolute value. -/
def overlapCheckFails (cfg : Config) (x y : SpanData) : Bool :=
  decide (cfg.gapDifference < 0) &&
    decide (min (endTime x) (endTime y) - max x.startTime y.startTime < -cfg.gapDifference)

/-- Source duration checks: difference at most 100000 µs always, and
unless both durations are short (< 20000 µs) also at most 20% of the
larger duration.  `5 * diff ≤ max` is the exact form of the source's
`diff ≤ 0.2 * max`. -/
def durationCheckOk (x y : SpanData) : Bool :=
  if x.duration < 20000 ∧ y.duration < 20000 then
    decide (|(x.duration : Int) - (y.duration : Int)| ≤ 100000)
  else
    decide (|(x.duration : Int) - (y.duration : Int)| ≤ 100000) &&
      decide (5 * |(x.duration : Int) - (y.duration : Int)| ≤ (max x.duration y.duration : Int))

/-- The timing block of `compare_subtrees` (executed only at depth 0):
start-time tolerance, gap or strict-overlap tolerance, then duration
tolerances. -/
def timingOk (cfg : Config) (x y : SpanData) : Bool :=
  if cfg.startDifference < |x.startTime - y.startTime| then false
  else if gapCheckFails cfg x y then false
  else if overlapCheckFails cfg x y then false
  else durationCheckOk x y

/-- Source operation-name check: equal names pass; two database spans
whose names both start with "QUERY" also pass. -/
def operationNameOk (x y : SpanData) : Bool :=
  x.operationName == y.operationName ||
    (isDbSpan x && isDbSpan y &&
      strStarts x.operationName "QUERY" && strStarts y.operationName "QUERY")

/-- Number of database-classified spans in a child list
(`sum(1 for c in children if is_db_span(c))`). -/
def dbChildCount (cs : List SpanTree) : Nat := cs.countP isDbTree

/-- Source `compare_subtrees(span1, span2, ..., depth)`, with explicit
fuel making the recursion structural (fuel 0 never occurs when the fuel
exceeds the height of the first subtree; see `compareSubtrees_fuel_irrel`).
The checks appear in source order: same process, depth conditions at the
top level, equal subtree size, the timing block at the top level,
operation-name equality, the leaf case, equal child count, the
database-child count shortcut, and otherwise the pairwise recursion over
the two child lists sorted by operation name. -/
def compareSubtrees (cfg : Config) : Nat → SpanTree → SpanTree → Nat → Bool
  | 0, _, _, _ => false
  | fuel + 1, a, b, depth =>
    let children1 := sortByOperationName a.childList
    let children2 := sortByOperationName b.childList
    if a.data.processID ≠ b.data.processID then false
    else if depth = 0 ∧ (getMaxDepth a < 2 ∨ getMaxDepth b < 2 ∨ getMaxDepth a ≠ getMaxDepth b) then
      false
    else if countTotalSpans a ≠ countTotalSpans b then false
    else if depth = 0 ∧ timingOk cfg a.data b.data = false then false
    else if operationNameOk a.data b.data = false then false
    else if children1 = [] ∧ children2 = [] then true
    else if children1.length ≠ children2.length then false
    else if children1.any isDbTree then
      dbChildCount children1 == dbChildCount children2
    else
      (children1.zip children2).all fun p => compareSubtrees cfg fuel p.1 p.2 (depth + 1)

/-- The subtree-equivalence predicate `equivalent(a, b, isTop, tolerances)`
of the specification: `compare_subtrees` entered at depth 0 (top) or at a
positive depth, with fuel that always suffices (the height of `a` is less
than its span count). -/
def equivalent (cfg : Config) (a b : SpanTree) (isTop : Bool) : Bool :=
  compareSubtrees cfg (countTotalSpans a + 1) a b (cond isTop 0 1)

/-- The greedy loop of `cluster_parallel_subtrees`: repeatedly take the
earliest remaining span; database-classified spans are dropped without
seeding; otherwise the span becomes a candidate root, the matching
remaining spans (in order) form its cluster, and only clusters of size
at least 2 are kept.  Fuel bounds the number of iterations; each
iteration removes at least the pool head, so the pool length suffices. -/
def clusterLoopFuel (cfg : Config) : Nat → List SpanTree → List (List SpanTree)
  | 0, _ => []
  | _ + 1, [] => []
  | fuel + 1, root :: rest =>
    if isDbTree root then clusterLoopFuel cfg fuel rest
    else
      let cluster := root :: rest.filter fun t => equivalent cfg root t true
      let rest1 := rest.filter fun t => !(equivalent cfg root t true)
      if 2 ≤ cluster.length then cluster :: clusterLoopFuel cfg fuel rest1
      else clusterLoopFuel cfg fuel rest1

/-- Source `cluster_parallel_subtrees(spans, ...)`: sort the sibling
group by start time and run the greedy clustering loop.  (The source
pairs each member with its `count_total_spans` value; the count is
derived data, so clusters are modelled as lists of members.) -/
def clusterParallelSubtrees (cfg : Config) (spans : List SpanTree) : List (List SpanTree) :=
  clusterLoopFuel cfg spans.length (sortByStartTime spans)

/-- Merge condition of the historical variant (`Test.py`,
`cluster_duplicates`): some span of one cluster starts within 500000 µs
(a fixed constant there) of some span of the other. -/
def shouldMergeClusters (c1 c2 : List SpanData) : Bool :=
  c1.any fun s1 => c2.any fun s2 => decide (|s1.startTime - s2.startTime| ≤ 500000)

/-- Inner loop of the `Test.py` merge pass: scan the remaining clusters
once, left to right, absorbing into the current cluster every cluster
that meets the merge condition against the current cluster as grown so
far; skipped clusters are kept in order. -/
def absorbClusters (cur : List SpanData) : List (List SpanData) → List SpanData × List (List SpanData)
  | [] => (cur, [])
  | c :: cs =>
    if shouldMergeClusters cur c then absorbClusters (cur ++ c) cs
    else
      let r := absorbClusters cur cs
      (r.1, c :: r.2)

/-- Outer loop of the `Test.py` merge pass, fuelled by the cluster-list
length (each round removes at least the head cluster). -/
def mergeClustersFuel : Nat → List (List SpanData) → List (List SpanData)
  | 0, cs => cs
  | _ + 1, [] => []
  | fuel + 1, c :: cs =>
    let r := absorbClusters c cs
    r.1 :: mergeClustersFuel fuel r.2

/-- The merge pass of `Test.py` (`cluster_duplicates`, lines 229-251). -/
def mergeClusters (clusters : List (List SpanData)) : List (List SpanData) :=
  mergeClustersFuel clusters.length clusters

/-- Dict lookup `tags.get(k)`: the value at the first (unique) matching
key, if any. -/
def tagsGet (tags : Tags) (k : String) : Option String :=
  (tags.find? fun kv => kv.1 == k).map (·.2)

/-- Dict membership `k in tags`. -/
def tagsHas (tags : Tags) (k : String) : Bool := (tagsGet tags k).isSome

/-- Python's `a or b` on optional strings: `a` unless it is missing or
empty (falsy), else `b`. -/
def pyOr (a b : Option String) : Option String :=
  match a with
  | some s => if s = "" then b else some s
  | none => b

/-- Source operation-name normalization in `build_span_hierarchy`
(`SuperGrok.py` lines 56-77).  `extractPath` stands for the external
collaborator `extract_path_from_url` (standard-library URL parsing),
over which all results are universally quantified. -/
def normalizeOperationName (extractPath : String → String) (tags : Tags) (orig : String) : String :=
  if tagsHas tags "http.request.method" || tagsHas tags "http.method" then
    let method := pyOr (tagsGet tags "http.request.method") (tagsGet tags "http.method")
    let path0 :=
      pyOr (pyOr (pyOr (pyOr (tagsGet tags "http.target") (tagsGet tags "url.path"))
        (tagsGet tags "http.route")) (tagsGet tags "url.full")) none
    let path1 :=
      match path0 with
      | none =>
        match tagsGet tags "http.url" with
        | some u => some (extractPath u)
        | none => none
      | some p => some p
    let pathStr := match path1 with | none => "/*" | some p => p
    (match method with | some m => m | none => "None") ++ " " ++ pathStr
  else if tagsHas tags "db.statement" then
    let stmt := (tagsGet tags "db.statement").getD ""
    let table := (tagsGet tags "db.sql.table").getD "unknown_table"
    if strStarts stmt "SELECT" then "SELECT " ++ table
    else if strStarts stmt "INSERT" then "INSERT " ++ table
    else if strStarts stmt "UPDATE" then "UPDATE " ++ table
    else if strStarts stmt "DELETE" then "DELETE " ++ table
    else "QUERY " ++ table
  else orig

/-- The verb classification of the database branch: the statement's
leading keyword among SELECT/INSERT/UPDATE/DELETE, else "QUERY". -/
def dbVerbOfStatement (stmt : String) : String :=
  if strStarts stmt "SELECT" then "SELECT"
  else if strStarts stmt "INSERT" then "INSERT"
  else if strStarts stmt "UPDATE" then "UPDATE"
  else if strStarts stmt "DELETE" then "DELETE"
  else "QUERY"

/-- The table part of the database label: the explicit table attribute,
defaulting to "unknown_table" when absent. -/
def dbTableOfTags (tags : Tags) : String :=
  (tagsGet tags "db.sql.table").getD "unknown_table"

/-- A span reference `{refType, spanID}`. -/
structure SpanRef where
  refType : String
  spanID : String
deriving DecidableEq

/-- The fields of a raw span that parent resolution reads. -/
structure RawSpan where
  spanID : String
  references : List SpanRef
deriving DecidableEq

/-- A reference resolves as a parent link when its type is CHILD_OF and
its target is a known span. -/
def isChildRef (known : String → Bool) (r : SpanRef) : Bool :=
  r.refType == "CHILD_OF" && known r.spanID

/-- Source parent resolution (`build_span_hierarchy`, second loop): the
target of the first CHILD_OF reference whose target is known; `none`
when there is no such reference. -/
def resolveParent (known : String → Bool) (refs : List SpanRef) : Option String :=
  (refs.find? (isChildRef known)).map (·.spanID)

/-- Membership in `span_dict`: some span of the trace has this id. -/
def knownIds (spans : List RawSpan) : String → Bool :=
  fun i => spans.any fun s => s.spanID == i

/-- Source root collection: a span lands in `roots` when `parent_id` is
falsy, i.e. resolution found nothing or found the empty-string id. -/
def isRootSpan (known : String → Bool) (refs : List SpanRef) : Bool :=
  match resolveParent known refs with
  | none => true
  | some p => p == ""

/-- The `roots` list built by `build_span_hierarchy`. -/
def rootSpans (spans : List RawSpan) : List RawSpan :=
  spans.filter fun s => isRootSpan (knownIds spans) s.references

/-- The children list `hierarchy[pid]`: spans whose resolved parent is
`pid`, in trace order. -/
def hierarchyChildren (spans : List RawSpan) (pid : String) : List RawSpan :=
  spans.filter fun s => resolveParent (knownIds spans) s.references == some pid

/-- A span record with all time fields zeroed; used to state that
comparisons below the top level read no timing data. -/
def eraseTimesData (x : SpanData) : SpanData :=
  ⟨x.spanID, x.operationName, 0, 0, x.processID, x.tags⟩

mutual
/-- A subtree with every span's time fields zeroed. -/
def eraseTimes : SpanTree → SpanTree
  | .node x cs => .node (eraseTimesData x) (eraseTimesList cs)
def eraseTimesList : List SpanTree → List SpanTree
  | [] => []
  | t :: ts => eraseTimes t :: eraseTimesList ts
end

mutual
/-- No span in the subtree is database-classified. -/
def noDbInTree : SpanTree → Bool
  | .node x cs => !isDbSpan x && noDbInList cs
def noDbInList : List SpanTree → Bool
  | [] => true
  | t :: ts => noDbInTree t && noDbInList ts
end

/-- Whether the half-open intervals of two spans do not overlap. -/
def intervalsDisjoint (x y : SpanData) : Prop :=
  endTime x ≤ y.startTime ∨ endTime y ≤ x.startTime

instance (x y : SpanData) : Decidable (intervalsDisjoint x y) := by
  unfold intervalsDisjoint
  exact inferInstance

/-- The gap between two disjoint intervals, with the source's branch
order (first interval ending before the second start takes precedence);
0 when the intervals touch or overlap. -/
def intervalGap (x y : SpanData) : Int :=
  if endTime x < y.startTime then y.startTime - endTime x
  else if endTime y < x.startTime then x.startTime - endTime y
  else 0

/-- The overlap amount `min(end1, end2) - max(start1, start2)`. -/
def intervalOverlap (x y : SpanData) : Int :=
  min (endTime x) (endTime y) - max x.startTime y.startTime

/-! Concrete spans and subtrees used by the counterexamples and
witnesses below. -/

/-- Leaf span named "SELECT t" that is not database-classified (its
tags carry no db.statement); paired with `exA1` below. -/
def exA1x : SpanTree := .node ⟨"a1x", "SELECT t", 0, 10, "p", []⟩ []

/-- Leaf span named "SELECT t" that is database-classified. -/
def exA1y : SpanTree := .node ⟨"a1y", "SELECT t", 0, 10, "p", [("db.statement", "SELECT 1")]⟩ []

/-- Parent of the non-database leaf. -/
def exA1 : SpanTree := .node ⟨"a1", "P", 0, 10, "p", []⟩ [exA1x]

/-- Parent of the database leaf; structurally parallel to `exA1`. -/
def exA2 : SpanTree := .node ⟨"a2", "P", 0, 10, "p", []⟩ [exA1y]

/-- Copy of the `exA1` shape used by the C5 counterexample. -/
def exB1 : SpanTree := .node ⟨"b1", "P", 0, 10, "p", []⟩ [.node ⟨"b1x", "SELECT t", 0, 10, "p", []⟩ []]

/-- Copy of the `exA2` shape used by the C5 counterexample. -/
def exB2 : SpanTree :=
  .node ⟨"b2", "P", 0, 10, "p", []⟩ [.node ⟨"b2y", "SELECT t", 0, 10, "p", [("db.statement", "SELECT 1")]⟩ []]

/-- Subtree of height 2 and size 5 whose child list contains a
database span: the database-child shortcut stops the recursion. -/
def exC1 : SpanTree :=
  .node ⟨"c1", "A", 0, 5, "p", []⟩
    [.node ⟨"c1d", "DQ", 0, 5, "p", [("db.statement", "x")]⟩ [],
     .node ⟨"c1x", "X", 0, 5, "p", []⟩
       [.node ⟨"c1u", "L1", 0, 5, "p", []⟩ [], .node ⟨"c1v", "L2", 0, 5, "p", []⟩ []]]

/-- Subtree of height 3 and size 5, same operation names and database
child count as `exC1` at the compared level. -/
def exC2 : SpanTree :=
  .node ⟨"c2", "A", 0, 5, "p", []⟩
    [.node ⟨"c2d", "DQ", 0, 5, "p", [("db.statement", "x")]⟩ [],
     .node ⟨"c2x", "X", 0, 5, "p", []⟩
       [.node ⟨"c2u", "L1", 0, 5, "p", []⟩ [.node ⟨"c2w", "L2", 0, 5, "p", []⟩ []]]]

/-- Chain of height 2 starting at time 0 with duration 10. -/
def exD1 : SpanTree :=
  .node ⟨"d1", "A", 0, 10, "p", []⟩
    [.node ⟨"d1b", "B", 0, 5, "p", []⟩ [.node ⟨"d1c", "C", 0, 3, "p", []⟩ []]]

/-- Chain of height 2 starting at time 100 (disjoint from `exD1`, gap
90) with duration 10. -/
def exD2 : SpanTree :=
  .node ⟨"d2", "A", 100, 10, "p", []⟩
    [.node ⟨"d2b", "B", 100, 5, "p", []⟩ [.node ⟨"d2c", "C", 100, 3, "p", []⟩ []]]

/-- Chain of height 2, duration 100000 (not short). -/
def exE1 : SpanTree :=
  .node ⟨"e1", "A", 0, 100000, "p", []⟩
    [.node ⟨"e1b", "B", 0, 5, "p", []⟩ [.node ⟨"e1c", "C", 0, 3, "p", []⟩ []]]

/-- Chain of height 2, duration 90000, overlapping `exE1`. -/
def exE2 : SpanTree :=
  .node ⟨"e2", "A", 10, 90000, "p", []⟩
    [.node ⟨"e2b", "B", 10, 5, "p", []⟩ [.node ⟨"e2c", "C", 10, 3, "p", []⟩ []]]

/-- Cluster-root example: start 0, duration 500000. -/
def exF0 : SpanTree :=
  .node ⟨"f0", "A", 0, 500000, "p", []⟩
    [.node ⟨"f0b", "B", 0, 5, "p", []⟩ [.node ⟨"f0c", "C", 0, 3, "p", []⟩ []]]

/-- Member matching `exF0` (duration 400000, at the 20% boundary). -/
def exF1 : SpanTree :=
  .node ⟨"f1", "A", 1000, 400000, "p", []⟩
    [.node ⟨"f1b", "B", 1000, 5, "p", []⟩ [.node ⟨"f1c", "C", 1000, 3, "p", []⟩ []]]

/-- Member matching `exF0` (duration 600000) but not `exF1`: the
durations 400000 and 600000 differ by more than 100000 µs. -/
def exF2 : SpanTree :=
  .node ⟨"f2", "A", 2000, 600000, "p", []⟩
    [.node ⟨"f2b", "B", 2000, 5, "p", []⟩ [.node ⟨"f2c", "C", 2000, 3, "p", []⟩ []]]

/-- Non-database candidate root whose label happens to read like a
database label. -/
def exG0 : SpanTree :=
  .node ⟨"g0", "SELECT t", 0, 10, "p", []⟩
    [.node ⟨"g0b", "B", 0, 5, "p", []⟩ [.node ⟨"g0c", "C", 0, 3, "p", []⟩ []]]

/-- Database-classified sibling matched by `exG0`. -/
def exG1 : SpanTree :=
  .node ⟨"g1", "SELECT t", 10, 10, "p", [("db.statement", "SELECT 1")]⟩
    [.node ⟨"g1b", "B", 10, 5, "p", []⟩ [.node ⟨"g1c", "C", 10, 3, "p", []⟩ []]]

/-- Chain with operation "A" starting at 0; forms a cluster with
`exH2` while `exH1b`/`exH2b` form a second, temporally co-located one. -/
def exH1 : SpanTree :=
  .node ⟨"h1", "A", 0, 100, "p", []⟩
    [.node ⟨"h1b", "A1", 0, 5, "p", []⟩ [.node ⟨"h1c", "A2", 0, 3, "p", []⟩ []]]

/-- Chain with operation "B" starting at 10. -/
def exH1b : SpanTree :=
  .node ⟨"h3", "B", 10, 100, "p", []⟩
    [.node ⟨"h3b", "B1", 10, 5, "p", []⟩ [.node ⟨"h3c", "B2", 10, 3, "p", []⟩ []]]

/-- Chain with operation "A" starting at 20. -/
def exH2 : SpanTree :=
  .node ⟨"h2", "A", 20, 100, "p", []⟩
    [.node ⟨"h2b", "A1", 20, 5, "p", []⟩ [.node ⟨"h2c", "A2", 20, 3, "p", []⟩ []]]

/-- Chain with operation "B" starting at 30. -/
def exH2b : SpanTree :=
  .node ⟨"h4", "B", 30, 100, "p", []⟩
    [.node ⟨"h4b", "B1", 30, 5, "p", []⟩ [.node ⟨"h4c", "B2", 30, 3, "p", []⟩ []]]

/-- Tags of a database span with no explicit table attribute: the claim
would scan the statement and produce table "users". -/
def exDbTags : Tags := [("db.statement", "SELECT * FROM users")]

/-- Raw span whose only CHILD_OF reference targets an unknown span. -/
def exRawA : RawSpan := ⟨"ra", [⟨"CHILD_OF", "zz"⟩]⟩

/-- Raw span with no references. -/
def exRawB : RawSpan := ⟨"rb", []⟩

/-- A two-span trace for the parent-resolution witness. -/
def exRawSpans : List RawSpan := [exRawA, exRawB]

/-! Basic lemmas about the sorting helpers. -/

theorem insertLe_perm (le : SpanTree → SpanTree → Bool) (t : SpanTree) :
    ∀ l : List SpanTree, (insertLe le t l).Perm (t :: l)
  | [] => List.Perm.refl _
  | u :: us => by
    unfold insertLe
    split
    · exact List.Perm.refl _
    · exact ((insertLe_perm le t us).cons u).trans (List.Perm.swap t u us)

theorem sortStable_perm (le : SpanTree → SpanTree → Bool) :
    ∀ l : List SpanTree, (sortStable le l).Perm l
  | [] => List.Perm.refl _
  | t :: ts => (insertLe_perm le t (sortStable le ts)).trans ((sortStable_perm le ts).cons t)

theorem mem_insertLe {le t x} {l : List SpanTree} :
    x ∈ insertLe le t l ↔ x = t ∨ x ∈ l := by
  rw [(insertLe_perm le t l).mem_iff, List.mem_cons]

theorem mem_sortStable {le x} {l : List SpanTree} :
    x ∈ sortStable le l ↔ x ∈ l := (sortStable_perm le l).mem_iff

theorem mem_sortByOperationName {x} {l : List SpanTree} :
    x ∈ sortByOperationName l ↔ x ∈ l := mem_sortStable

theorem perm_any {l1 l2 : List SpanTree} (h : l1.Perm l2) (p : SpanTree → Bool) :
    l1.any p = l2.any p := by
  cases hb : l2.any p
  · rw [List.any_eq_false] at hb ⊢
    exact fun x hx => hb x (h.mem_iff.mp hx)
  · rw [List.any_eq_true] at hb ⊢
    obtain ⟨x, hx, hpx⟩ := hb
    exact ⟨x, h.mem_iff.mpr hx, hpx⟩

theorem sortByOperationName_any (l : List SpanTree) (p : SpanTree → Bool) :
    (sortByOperationName l).any p = l.any p :=
  perm_any (sortStable_perm _ l) p

theorem sortByOperationName_countP (l : List SpanTree) (p : SpanTree → Bool) :
    (sortByOperationName l).countP p = l.countP p :=
  (sortStable_perm _ l).countP_eq p

theorem sortByOperationName_length (l : List SpanTree) :
    (sortByOperationName l).length = l.length :=
  (sortStable_perm _ l).length_eq

/-- Start-time order used by the clusterer. -/
def startLe (a b : SpanTree) : Prop := a.data.startTime ≤ b.data.startTime

theorem insertLe_startTime_pairwise {t : SpanTree} {l : List SpanTree}
    (h : l.Pairwise startLe) : (insertLe startTimeLe t l).Pairwise startLe := by
  induction l with
  | nil => exact List.pairwise_singleton _ _
  | cons u us ih =>
    rw [List.pairwise_cons] at h
    unfold insertLe
    split
    · next hle =>
      rw [startTimeLe, decide_eq_true_iff] at hle
      refine List.pairwise_cons.mpr ⟨?_, List.pairwise_cons.mpr h⟩
      intro x hx
      rcases List.mem_cons.mp hx with rfl | hx
      · exact hle
      · exact le_trans hle (h.1 x hx)
    · next hle =>
      rw [startTimeLe, decide_eq_true_iff] at hle
      push_neg at hle
      refine List.pairwise_cons.mpr ⟨?_, ih h.2⟩
      intro x hx
      rcases mem_insertLe.mp hx with rfl | hx
      · exact le_of_lt hle
      · exact h.1 x hx

theorem sortByStartTime_pairwise : ∀ l : List SpanTree, (sortByStartTime l).Pairwise startLe
  | [] => List.Pairwise.nil
  | _ :: ts => insertLe_startTime_pairwise (sortByStartTime_pairwise ts)

/-! Lemmas about zipped child lists. -/

theorem zip_all_swap (f g : SpanTree → SpanTree → Bool) :
    ∀ (l1 l2 : List SpanTree),
      (∀ x ∈ l1, ∀ y ∈ l2, f x y = true → g y x = true) →
      (l1.zip l2).all (fun p => f p.1 p.2) = true →
      (l2.zip l1).all (fun p => g p.1 p.2) = true
  | [], l2, _, _ => by cases l2 <;> simp
  | _ :: _, [], _, _ => by simp
  | x :: xs, y :: ys, h, hall => by
    simp only [List.zip_cons_cons, List.all_cons, Bool.and_eq_true] at hall ⊢
    refine ⟨h x (by simp) y (by simp) hall.1, ?_⟩
    exact zip_all_swap f g xs ys
      (fun a ha b hb => h a (List.mem_cons_of_mem _ ha) b (List.mem_cons_of_mem _ hb)) hall.2

theorem zip_self_all (f : SpanTree → SpanTree → Bool) :
    ∀ l : List SpanTree, (∀ x ∈ l, f x x = true) →
      (l.zip l).all (fun p => f p.1 p.2) = true
  | [], _ => rfl
  | x :: xs, h => by
    simp only [List.zip_cons_cons, List.all_cons, Bool.and_eq_true]
    exact ⟨h x (by simp), zip_self_all f xs fun a ha => h a (List.mem_cons_of_mem _ ha)⟩

theorem zip_all_congr (f g : SpanTree → SpanTree → Bool) :
    ∀ (l1 l2 : List SpanTree),
      (∀ x ∈ l1, ∀ y ∈ l2, f x y = g x y) →
      (l1.zip l2).all (fun p => f p.1 p.2) = (l1.zip l2).all (fun p => g p.1 p.2)
  | [], l2, _ => by cases l2 <;> simp
  | _ :: _, [], _ => by simp
  | x :: xs, y :: ys, h => by
    simp only [List.zip_cons_cons, List.all_cons]
    rw [h x (by simp) y (by simp),
      zip_all_congr f g xs ys fun a ha b hb => h a (List.mem_cons_of_mem _ ha) b (List.mem_cons_of_mem _ hb)]

/-! Structural lemmas about depth and size. -/

theorem getMaxDepth_le_depthListMax : ∀ {c : SpanTree} {cs : List SpanTree},
    c ∈ cs → getMaxDepth c ≤ depthListMax cs := by
  intro c cs
  induction cs with
  | nil => intro h; cases h
  | cons u us ih =>
    intro h
    rcases List.mem_cons.mp h with rfl | h
    · rw [depthListMax]; exact le_max_left _ _
    · rw [depthListMax]; exact le_trans (ih h) (le_max_right _ _)

theorem getMaxDepth_child_lt {c t : SpanTree} (hc : c ∈ t.childList) :
    getMaxDepth c < getMaxDepth t := by
  cases t with
  | node d cs =>
    simp only [SpanTree.childList] at hc
    cases cs with
    | nil => cases hc
    | cons u us =>
      rw [getMaxDepth]
      have := getMaxDepth_le_depthListMax hc
      omega

theorem countTotalSpans_pos (t : SpanTree) : 1 ≤ countTotalSpans t := by
  cases t with
  | node d cs => rw [countTotalSpans]; omega

theorem countTotalSpansList_pos (c : SpanTree) (cs : List SpanTree) :
    1 ≤ countListSpans (c :: cs) := by
  rw [countListSpans]
  have := countTotalSpans_pos c
  omega

theorem beqStr_comm (a b : String) : (a == b) = (b == a) := by
  cases h1 : a == b
  · cases h2 : b == a
    · rfl
    · have hba : a = b := (eq_of_beq h2).symm
      subst hba
      simp at h1
  · have hab : a = b := eq_of_beq h1
    subst hab
    exact (beq_self_eq_true a).symm

/-! Commutativity of the timing checks (durations are nonnegative, so
the two non-overlap branches are mutually exclusive). -/

theorem startTime_le_endTime (x : SpanData) : x.startTime ≤ endTime x := by
  unfold endTime
  omega

theorem gapCheckFails_comm (cfg : Config) (x y : SpanData) :
    gapCheckFails cfg x y = gapCheckFails cfg y x := by
  have hx := startTime_le_endTime x
  have hy := startTime_le_endTime y
  unfold gapCheckFails
  split_ifs <;> first | rfl | omega

theorem overlapCheckFails_comm (cfg : Config) (x y : SpanData) :
    overlapCheckFails cfg x y = overlapCheckFails cfg y x := by
  unfold overlapCheckFails
  rw [min_comm (endTime x) (endTime y), max_comm x.startTime y.startTime]

theorem durationCheckOk_comm (x y : SpanData) :
    durationCheckOk x y = durationCheckOk y x := by
  by_cases hc : x.duration < 20000 ∧ y.duration < 20000
  · simp only [durationCheckOk]
    rw [if_pos hc, if_pos (And.intro hc.2 hc.1), abs_sub_comm ((x.duration : Int)) ((y.duration : Int))]
  · simp only [durationCheckOk]
    rw [if_neg hc, if_neg (fun hc2 => hc ⟨hc2.2, hc2.1⟩),
      abs_sub_comm ((x.duration : Int)) ((y.duration : Int)),
      max_comm ((x.duration : Int)) ((y.duration : Int))]

theorem timingOk_comm (cfg : Config) (x y : SpanData) :
    timingOk cfg x y = timingOk cfg y x := by
  unfold timingOk
  rw [abs_sub_comm x.startTime y.startTime, gapCheckFails_comm, overlapCheckFails_comm,
    durationCheckOk_comm]

theorem operationNameOk_comm (x y : SpanData) :
    operationNameOk x y = operationNameOk y x := by
  unfold operationNameOk
  rw [beqStr_comm]
  cases isDbSpan x <;> cases isDbSpan y <;> cases strStarts x.operationName "QUERY" <;>
    cases strStarts y.operationName "QUERY" <;> simp

theorem operationNameOk_refl (x : SpanData) : operationNameOk x x = true := by
  unfold operationNameOk
  rw [beq_self_eq_true]
  rfl

/-! Elimination lemmas for the timing checks. -/

theorem timingOk_elim {cfg : Config} {x y : SpanData} (h : timingOk cfg x y = true) :
    |x.startTime - y.startTime| ≤ cfg.startDifference ∧
    gapCheckFails cfg x y = false ∧ overlapCheckFails cfg x y = false ∧
    durationCheckOk x y = true := by
  unfold timingOk at h
  split at h
  · cases h
  next h1 =>
  split at h
  · cases h
  next h2 =>
  split at h
  · cases h
  next h3 =>
  exact ⟨le_of_not_lt h1, Bool.eq_false_iff.mpr h2, Bool.eq_false_iff.mpr h3, h⟩

theorem durationCheckOk_elim {x y : SpanData} (h : durationCheckOk x y = true) :
    |(x.duration : Int) - (y.duration : Int)| ≤ 100000 ∧
    (¬(x.duration < 20000 ∧ y.duration < 20000) →
      5 * |(x.duration : Int) - (y.duration : Int)| ≤ max (x.duration : Int) (y.duration : Int)) := by
  unfold durationCheckOk at h
  split at h
  · next hc =>
    rw [decide_eq_true_eq] at h
    exact ⟨h, fun hn => absurd hc hn⟩
  · next hc =>
    simp only [Bool.and_eq_true, decide_eq_true_eq] at h
    exact ⟨h.1, fun _ => h.2⟩

theorem gapCheckFails_false_elim {cfg : Config} {x y : SpanData}
    (h : gapCheckFails cfg x y = false) :
    (endTime x < y.startTime → 0 ≤ cfg.gapDifference → y.startTime - endTime x ≤ cfg.gapDifference) ∧
    (¬ endTime x < y.startTime → endTime y < x.startTime → 0 ≤ cfg.gapDifference →
      x.startTime - endTime y ≤ cfg.gapDifference) := by
  unfold gapCheckFails at h
  constructor
  · intro h1 hg
    rw [if_pos h1] at h
    simp only [Bool.and_eq_false_iff, decide_eq_false_iff_not] at h
    rcases h with h | h
    · exact absurd hg h
    · omega
  · intro h1 h2 hg
    rw [if_neg h1, if_pos h2] at h
    simp only [Bool.and_eq_false_iff, decide_eq_false_iff_not] at h
    rcases h with h | h
    · exact absurd hg h
    · omega

theorem overlapCheckFails_false_elim {cfg : Config} {x y : SpanData}
    (h : overlapCheckFails cfg x y = false) (hneg : cfg.gapDifference < 0) :
    -cfg.gapDifference ≤ min (endTime x) (endTime y) - max x.startTime y.startTime := by
  unfold overlapCheckFails at h
  simp only [Bool.and_eq_false_iff, decide_eq_false_iff_not] at h
  rcases h with h | h
  · exact absurd hneg h
  · omega

/-- Passing the timing block against any span implies passing it
against oneself (durations are nonnegative, so a span never ends
before its own start). -/
theorem timingOk_self {cfg : Config} {x y : SpanData} (h : timingOk cfg x y = true) :
    timingOk cfg x x = true := by
  obtain ⟨hs, hgap, hover, _⟩ := timingOk_elim h
  have hsd : 0 ≤ cfg.startDifference := le_trans (abs_nonneg _) hs
  have hxe := startTime_le_endTime x
  have hg : gapCheckFails cfg x x = false := by
    unfold gapCheckFails
    rw [if_neg (not_lt.mpr hxe), if_neg (not_lt.mpr hxe)]
  have ho : overlapCheckFails cfg x x = false := by
    unfold overlapCheckFails
    rcases lt_or_le cfg.gapDifference 0 with hneg | hpos
    · have hov := overlapCheckFails_false_elim hover hneg
      have h1 : min (endTime x) (endTime y) ≤ endTime x := min_le_left _ _
      have h2 : x.startTime ≤ max x.startTime y.startTime := le_max_left _ _
      have h3 : -cfg.gapDifference ≤ endTime x - x.startTime := by linarith
      rw [min_self, max_self, decide_eq_false (not_lt.mpr h3), Bool.and_false]
    · rw [decide_eq_false (not_lt.mpr hpos), Bool.false_and]
  have hd : durationCheckOk x x = true := by
    unfold durationCheckOk
    rw [sub_self, abs_zero]
    split
    · exact decide_eq_true (by omega)
    · rw [max_self]
      simp only [Bool.and_eq_true, decide_eq_true_eq]
      exact ⟨by omega, by omega⟩
  unfold timingOk
  rw [sub_self, abs_zero, if_neg (not_lt.mpr hsd), hg, ho,
    if_neg (Bool.false_ne_true), if_neg (Bool.false_ne_true)]
  exact hd

/-! Elimination lemmas for `compareSubtrees`. -/

theorem compareSubtrees_elim {cfg : Config} {fuel : Nat} {a b : SpanTree} {depth : Nat}
    (h : compareSubtrees cfg (fuel + 1) a b depth = true) :
    a.data.processID = b.data.processID ∧
    (depth = 0 → 2 ≤ getMaxDepth a ∧ getMaxDepth a = getMaxDepth b) ∧
    countTotalSpans a = countTotalSpans b ∧
    (depth = 0 → timingOk cfg a.data b.data = true) ∧
    operationNameOk a.data b.data = true := by
  simp only [compareSubtrees] at h
  split at h
  · cases h
  next h1 =>
  split at h
  · cases h
  next h2 =>
  split at h
  · cases h
  next h3 =>
  split at h
  · cases h
  next h4 =>
  split at h
  · cases h
  next h5 =>
  refine ⟨of_not_not h1, ?_, of_not_not h3, ?_, ?_⟩
  · intro h0
    rw [not_and] at h2
    have h2a := h2 h0
    push_neg at h2a
    exact ⟨h2a.1, h2a.2.2⟩
  · intro h0
    rw [not_and] at h4
    have h4a := h4 h0
    exact eq_true_of_ne_false h4a
  · exact eq_true_of_ne_false h5

theorem compareSubtrees_cases {cfg : Config} {fuel : Nat} {a b : SpanTree} {depth : Nat}
    (h : compareSubtrees cfg (fuel + 1) a b depth = true) :
    (sortByOperationName a.childList = [] ∧ sortByOperationName b.childList = []) ∨
    (¬(sortByOperationName a.childList = [] ∧ sortByOperationName b.childList = []) ∧
      (sortByOperationName a.childList).length = (sortByOperationName b.childList).length ∧
      (((sortByOperationName a.childList).any isDbTree = true ∧
        dbChildCount (sortByOperationName a.childList) =
          dbChildCount (sortByOperationName b.childList)) ∨
       ((sortByOperationName a.childList).any isDbTree = false ∧
        ((sortByOperationName a.childList).zip (sortByOperationName b.childList)).all
          (fun p => compareSubtrees cfg fuel p.1 p.2 (depth + 1)) = true))) := by
  simp only [compareSubtrees] at h
  split at h
  · cases h
  next =>
  split at h
  · cases h
  next =>
  split at h
  · cases h
  next =>
  split at h
  · cases h
  next =>
  split at h
  · cases h
  next =>
  split at h
  · next hleaf => exact Or.inl hleaf
  next hleaf =>
  split at h
  · cases h
  next hlen =>
  split at h
  · next hdb => exact Or.inr ⟨hleaf, of_not_not hlen, Or.inl ⟨hdb, by simpa using h⟩⟩
  · next hdb => exact Or.inr ⟨hleaf, of_not_not hlen, Or.inr ⟨Bool.eq_false_iff.mpr hdb, h⟩⟩

/-! Reflexivity of the comparator below the top level. -/

theorem compareSubtrees_refl (cfg : Config) :
    ∀ (fuel : Nat) (t : SpanTree) (d : Nat), d ≠ 0 → getMaxDepth t < fuel →
      compareSubtrees cfg fuel t t d = true := by
  intro fuel
  induction fuel with
  | zero => intro t d _ hf; omega
  | succ n ih =>
    intro t d hd hf
    simp only [compareSubtrees]
    rw [if_neg (by simp : ¬ t.data.processID ≠ t.data.processID)]
    rw [if_neg (fun hc => hd hc.1)]
    rw [if_neg (by simp : ¬ countTotalSpans t ≠ countTotalSpans t)]
    rw [if_neg (fun hc => hd hc.1)]
    rw [operationNameOk_refl, if_neg (by simp : ¬ (true = false))]
    split
    · rfl
    next hleaf =>
    rw [if_neg (by simp : ¬ (sortByOperationName t.childList).length ≠
      (sortByOperationName t.childList).length)]
    split
    · simp
    · apply zip_self_all (fun x y => compareSubtrees cfg n x y (d + 1))
      intro x hx
      apply ih x (d + 1) (Nat.succ_ne_zero d)
      have hx2 : x ∈ t.childList := mem_sortByOperationName.mp hx
      have := getMaxDepth_child_lt hx2
      omega

/-! No database-classified span anywhere in a subtree. -/

theorem noDb_data {t : SpanTree} (h : noDbInTree t = true) : isDbSpan t.data = false := by
  cases t with
  | node x cs =>
    rw [noDbInTree, Bool.and_eq_true] at h
    rw [SpanTree.data]
    cases hx : isDbSpan x
    · rfl
    · rw [hx] at h; cases h.1

theorem noDb_child {t c : SpanTree} (h : noDbInTree t = true) (hc : c ∈ t.childList) :
    noDbInTree c = true := by
  cases t with
  | node x cs =>
    rw [noDbInTree, Bool.and_eq_true] at h
    simp only [SpanTree.childList] at hc
    have h2 := h.2
    induction cs with
    | nil => cases hc
    | cons u us ihl =>
      rw [noDbInList, Bool.and_eq_true] at h2
      rcases List.mem_cons.mp hc with rfl | hc2
      · exact h2.1
      · exact ihl ⟨h.1, h2.2⟩ hc2 h2.2

theorem noDb_sorted_any {t : SpanTree} (h : noDbInTree t = true) :
    (sortByOperationName t.childList).any isDbTree = false := by
  rw [sortByOperationName_any, List.any_eq_false]
  intro c hc
  rw [isDbTree, noDb_data (noDb_child h hc)]
  simp

/-! Commutativity of the comparator on database-free subtrees. -/

theorem compareSubtrees_comm_imp (cfg : Config) :
    ∀ (fuel : Nat) (a b : SpanTree) (d : Nat), noDbInTree a = true → noDbInTree b = true →
      compareSubtrees cfg fuel a b d = true → compareSubtrees cfg fuel b a d = true := by
  intro fuel
  induction fuel with
  | zero => intro a b d _ _ h; cases h
  | succ n ih =>
    intro a b d ha hb h
    obtain ⟨hpid, hdepth, hcount, htiming, hop⟩ := compareSubtrees_elim h
    have hcases := compareSubtrees_cases h
    simp only [compareSubtrees]
    rw [if_neg (not_ne_iff.mpr hpid.symm)]
    rw [if_neg (fun hc => by
      obtain ⟨h0, hbad⟩ := hc
      have hdp := hdepth h0
      omega)]
    rw [if_neg (not_ne_iff.mpr hcount.symm)]
    rw [if_neg (fun hc => by
      obtain ⟨h0, hbad⟩ := hc
      rw [timingOk_comm, htiming h0] at hbad
      cases hbad)]
    rw [if_neg (by rw [operationNameOk_comm, hop]; simp)]
    rcases hcases with ⟨h1, h2⟩ | ⟨hne, hlen, hrest⟩
    · rw [if_pos ⟨h2, h1⟩]
    · rw [if_neg (fun hc => hne ⟨hc.2, hc.1⟩)]
      rw [if_neg (not_ne_iff.mpr hlen.symm)]
      rw [if_neg (by rw [noDb_sorted_any hb]; simp)]
      rcases hrest with ⟨hdb, _⟩ | ⟨_, hall⟩
      · rw [noDb_sorted_any ha] at hdb; cases hdb
      · apply zip_all_swap (fun x y => compareSubtrees cfg n x y (d + 1))
          (fun x y => compareSubtrees cfg n x y (d + 1)) _ _ _ hall
        intro x hx y hy hxy
        exact ih x y (d + 1) (noDb_child ha (mem_sortByOperationName.mp hx))
          (noDb_child hb (mem_sortByOperationName.mp hy)) hxy

/-! Fuel irrelevance: once the fuel exceeds the height of the first
subtree, the comparator's value does not depend on it.  This justifies
reading `equivalent` as the total function computed by the source. -/

theorem compareSubtrees_fuel_irrel (cfg : Config) :
    ∀ (f g : Nat) (a b : SpanTree) (d : Nat), getMaxDepth a < f → getMaxDepth a < g →
      compareSubtrees cfg f a b d = compareSubtrees cfg g a b d := by
  intro f
  induction f with
  | zero => intro g a b d hf _; omega
  | succ n ih =>
    intro g a b d hf hg
    cases g with
    | zero => omega
    | succ m =>
      simp only [compareSubtrees]
      split
      · rfl
      split
      · rfl
      split
      · rfl
      split
      · rfl
      split
      · rfl
      split
      · rfl
      split
      · rfl
      split
      · rfl
      · apply zip_all_congr (fun x y => compareSubtrees cfg n x y (d + 1))
          (fun x y => compareSubtrees cfg m x y (d + 1))
        intro x hx y hy
        have hx2 : x ∈ a.childList := mem_sortByOperationName.mp hx
        have hlt := getMaxDepth_child_lt hx2
        exact ih m x y (d + 1) (by omega) (by omega)

/-! Lemmas about time erasure: every field the comparator reads below
the top level is preserved. -/

theorem data_eraseTimes (t : SpanTree) : (eraseTimes t).data = eraseTimesData t.data := by
  cases t; rfl

theorem childList_eraseTimes (t : SpanTree) :
    (eraseTimes t).childList = eraseTimesList t.childList := by
  cases t; rfl

theorem eraseTimesList_eq_map : ∀ l : List SpanTree, eraseTimesList l = l.map eraseTimes
  | [] => rfl
  | t :: ts => by rw [eraseTimesList, List.map_cons, eraseTimesList_eq_map ts]

theorem isDbTree_eraseTimes (t : SpanTree) : isDbTree (eraseTimes t) = isDbTree t := by
  cases t; rfl

mutual
theorem countTotalSpans_eraseTimes :
    ∀ t : SpanTree, countTotalSpans (eraseTimes t) = countTotalSpans t
  | .node x cs => by
    rw [eraseTimes, countTotalSpans, countTotalSpans, countListSpans_eraseTimesList cs]
theorem countListSpans_eraseTimesList :
    ∀ l : List SpanTree, countListSpans (eraseTimesList l) = countListSpans l
  | [] => rfl
  | t :: ts => by
    rw [eraseTimesList, countListSpans, countListSpans, countTotalSpans_eraseTimes t,
      countListSpans_eraseTimesList ts]
end

theorem opNameLe_eraseTimes (a b : SpanTree) :
    opNameLe (eraseTimes a) (eraseTimes b) = opNameLe a b := by
  cases a; cases b; rfl

theorem insertLe_eraseTimes (t : SpanTree) :
    ∀ l : List SpanTree,
      insertLe opNameLe (eraseTimes t) (l.map eraseTimes) = (insertLe opNameLe t l).map eraseTimes
  | [] => rfl
  | u :: us => by
    rw [List.map_cons, insertLe, insertLe, opNameLe_eraseTimes]
    split
    · rw [List.map_cons, List.map_cons]
    · rw [List.map_cons, insertLe_eraseTimes t us]

theorem sortByOperationName_eraseTimes :
    ∀ l : List SpanTree,
      sortByOperationName (l.map eraseTimes) = (sortByOperationName l).map eraseTimes
  | [] => rfl
  | t :: ts => by
    show sortStable opNameLe _ = _
    rw [List.map_cons, sortStable]
    show insertLe opNameLe (eraseTimes t) (sortByOperationName (ts.map eraseTimes)) = _
    rw [sortByOperationName_eraseTimes ts, insertLe_eraseTimes]
    rfl

theorem operationNameOk_eraseTimesData (x y : SpanData) :
    operationNameOk (eraseTimesData x) (eraseTimesData y) = operationNameOk x y := rfl

theorem zip_map_all_erase (f g : SpanTree → SpanTree → Bool) :
    ∀ (l1 l2 : List SpanTree),
      (∀ x ∈ l1, ∀ y ∈ l2, f (eraseTimes x) (eraseTimes y) = g x y) →
      ((l1.map eraseTimes).zip (l2.map eraseTimes)).all (fun p => f p.1 p.2) =
        (l1.zip l2).all (fun p => g p.1 p.2)
  | [], l2, _ => by cases l2 <;> simp
  | _ :: _, [], _ => by simp
  | x :: xs, y :: ys, h => by
    simp only [List.map_cons, List.zip_cons_cons, List.all_cons]
    rw [h x (by simp) y (by simp),
      zip_map_all_erase f g xs ys
        fun a ha b hb => h a (List.mem_cons_of_mem _ ha) b (List.mem_cons_of_mem _ hb)]

/-- Below the top level the comparator reads no timing data and no
tolerance configuration: zeroing every start time and duration on both
sides, and replacing the configuration, leaves its value unchanged. -/
theorem compareSubtrees_time_invariant (cfg cfg2 : Config) :
    ∀ (fuel : Nat) (a b : SpanTree) (d : Nat), d ≠ 0 →
      compareSubtrees cfg fuel (eraseTimes a) (eraseTimes b) d =
        compareSubtrees cfg2 fuel a b d := by
  intro fuel
  induction fuel with
  | zero => intro a b d _; rfl
  | succ n ih =>
    intro a b d hd
    have hpid : ∀ z : SpanData, (eraseTimesData z).processID = z.processID := fun _ => rfl
    simp only [compareSubtrees, data_eraseTimes, childList_eraseTimes, eraseTimesList_eq_map,
      sortByOperationName_eraseTimes, countTotalSpans_eraseTimes, operationNameOk_eraseTimesData,
      hpid, List.map_eq_nil_iff, List.length_map, List.any_map, dbChildCount, List.countP_map,
      Function.comp_def, isDbTree_eraseTimes]
    split
    · rfl
    rw [if_neg (show ¬(d = 0 ∧ (getMaxDepth (eraseTimes a) < 2 ∨ getMaxDepth (eraseTimes b) < 2 ∨
      getMaxDepth (eraseTimes a) ≠ getMaxDepth (eraseTimes b))) from fun hc => hd hc.1)]
    rw [if_neg (show ¬(d = 0 ∧ (getMaxDepth a < 2 ∨ getMaxDepth b < 2 ∨
      getMaxDepth a ≠ getMaxDepth b)) from fun hc => hd hc.1)]
    split
    · rfl
    rw [if_neg (show ¬(d = 0 ∧ timingOk cfg (eraseTimesData a.data) (eraseTimesData b.data) = false)
      from fun hc => hd hc.1)]
    rw [if_neg (show ¬(d = 0 ∧ timingOk cfg2 a.data b.data = false) from fun hc => hd hc.1)]
    split
    · rfl
    split
    · rfl
    split
    · rfl
    split
    · rfl
    · apply zip_map_all_erase (fun x y => compareSubtrees cfg n x y (d + 1))
        (fun x y => compareSubtrees cfg2 n x y (d + 1))
      intro x _ y _
      exact ih x y (d + 1) (Nat.succ_ne_zero d)

mutual
theorem getMaxDepth_lt_countTotalSpans : ∀ t : SpanTree, getMaxDepth t < countTotalSpans t
  | .node d [] => by rw [getMaxDepth, countTotalSpans, countListSpans]; omega
  | .node d (c :: cs) => by
    rw [getMaxDepth, countTotalSpans]
    rcases depthListMax_lt_countListSpans (c :: cs) with ⟨-, h | h⟩
    · cases h
    · omega
theorem depthListMax_lt_countListSpans :
    ∀ cs : List SpanTree,
      depthListMax cs ≤ countListSpans cs ∧ (cs = [] ∨ depthListMax cs < countListSpans cs)
  | [] => by rw [depthListMax, countListSpans]; exact ⟨le_refl 0, Or.inl rfl⟩
  | c :: cs => by
    rw [depthListMax, countListSpans]
    have h1 := getMaxDepth_lt_countTotalSpans c
    have h2 := (depthListMax_lt_countListSpans cs).1
    have h3 := countTotalSpans_pos c
    exact ⟨by omega, Or.inr (by omega)⟩
end

/-! Self-equivalence of a candidate root that matched some sibling. -/

theorem equivalent_self_of_match {cfg : Config} {root m : SpanTree}
    (h : equivalent cfg root m true = true) : equivalent cfg root root true = true := by
  unfold equivalent at h ⊢
  simp only [cond_true] at h ⊢
  obtain ⟨-, hdepth, -, htiming, -⟩ := compareSubtrees_elim h
  obtain ⟨h2le, -⟩ := hdepth rfl
  have hself := timingOk_self (htiming rfl)
  simp only [compareSubtrees, true_and]
  rw [if_neg (by simp : ¬ root.data.processID ≠ root.data.processID)]
  rw [if_neg (show ¬(getMaxDepth root < 2 ∨ getMaxDepth root < 2 ∨
    getMaxDepth root ≠ getMaxDepth root) from by omega)]
  rw [if_neg (by simp : ¬ countTotalSpans root ≠ countTotalSpans root)]
  rw [if_neg (show ¬ timingOk cfg root.data root.data = false from by
    rw [hself]
    simp)]
  rw [operationNameOk_refl, if_neg (by simp : ¬ (true = false))]
  split
  · rfl
  next hleaf =>
  rw [if_neg (by simp : ¬ (sortByOperationName root.childList).length ≠
    (sortByOperationName root.childList).length)]
  split
  · simp
  · apply zip_self_all (fun x y => compareSubtrees cfg (countTotalSpans root) x y (0 + 1))
    intro x hx
    apply compareSubtrees_refl cfg (countTotalSpans root) x (0 + 1) (by omega)
    have hx2 : x ∈ root.childList := mem_sortByOperationName.mp hx
    have h1 := getMaxDepth_child_lt hx2
    have h2 := getMaxDepth_lt_countTotalSpans root
    omega

/-! Soundness of the greedy clustering loop. -/

theorem clusterLoopFuel_mem (cfg : Config) :
    ∀ (fuel : Nat) (pool : List SpanTree) (c : List SpanTree),
      c ∈ clusterLoopFuel cfg fuel pool →
      ∃ root rest, (root :: rest).Sublist pool ∧ isDbTree root = false ∧
        c = root :: rest.filter (fun t => equivalent cfg root t true) ∧ 2 ≤ c.length := by
  intro fuel
  induction fuel with
  | zero => intro pool c hc; cases hc
  | succ n ih =>
    intro pool c hc
    cases pool with
    | nil => cases hc
    | cons root rest =>
      simp only [clusterLoopFuel] at hc
      split at hc
      · obtain ⟨r, rs, hsub, hdb, hceq, hlen⟩ := ih rest c hc
        exact ⟨r, rs, hsub.trans (List.sublist_cons_self root rest), hdb, hceq, hlen⟩
      next hdb =>
        split at hc
        · next hlen =>
          rcases List.mem_cons.mp hc with rfl | hc2
          · exact ⟨root, rest, List.Sublist.refl _, Bool.eq_false_iff.mpr hdb, rfl, hlen⟩
          · obtain ⟨r, rs, hsub, hdb2, hceq, hlen2⟩ := ih _ c hc2
            refine ⟨r, rs, hsub.trans (List.Sublist.trans ?_
              (List.sublist_cons_self root rest)), hdb2, hceq, hlen2⟩
            exact List.filter_sublist rest
        · obtain ⟨r, rs, hsub, hdb2, hceq, hlen2⟩ := ih _ c hc
          refine ⟨r, rs, hsub.trans (List.Sublist.trans ?_
            (List.sublist_cons_self root rest)), hdb2, hceq, hlen2⟩
          exact List.filter_sublist rest

/-! The two-cluster behaviour of the historical merge pass. -/

theorem mergeClusters_pair_eq (c1 c2 : List SpanData) :
    mergeClusters [c1, c2] =
      if shouldMergeClusters c1 c2 then [c1 ++ c2] else [c1, c2] := by
  show mergeClustersFuel 2 [c1, c2] = _
  cases h : shouldMergeClusters c1 c2 <;>
    simp [mergeClustersFuel, absorbClusters, h]

/-! First-match characterization of parent resolution. -/

theorem resolveParent_some_iff (known : String → Bool) :
    ∀ (refs : List SpanRef) (p : String),
      resolveParent known refs = some p ↔
        ∃ pre r post, refs = pre ++ r :: post ∧ isChildRef known r = true ∧ r.spanID = p ∧
          ∀ q ∈ pre, isChildRef known q = false := by
  intro refs
  induction refs with
  | nil =>
    intro p
    constructor
    · intro h; cases h
    · rintro ⟨pre, r, post, heq, -, -, -⟩
      cases pre <;> cases heq
  | cons r rs ih =>
    intro p
    cases hr : isChildRef known r
    · rw [show resolveParent known (r :: rs) = resolveParent known rs from by
        unfold resolveParent
        rw [List.find?_cons_of_neg _ (by rw [hr]; exact Bool.false_ne_true)]]
      rw [ih p]
      constructor
      · rintro ⟨pre, r2, post, heq, hr2, hp, hpre⟩
        refine ⟨r :: pre, r2, post, by rw [heq]; rfl, hr2, hp, ?_⟩
        intro q hq
        rcases List.mem_cons.mp hq with rfl | hq2
        · exact hr
        · exact hpre q hq2
      · rintro ⟨pre, r2, post, heq, hr2, hp, hpre⟩
        cases pre with
        | nil =>
          rw [List.nil_append] at heq
          cases heq
          rw [hr2] at hr
          cases hr
        | cons q pre2 =>
          rw [List.cons_append] at heq
          cases heq
          exact ⟨pre2, r2, post, rfl, hr2, hp, fun q2 hq2 =>
            hpre q2 (List.mem_cons_of_mem _ hq2)⟩
    · rw [show resolveParent known (r :: rs) = some r.spanID from by
        unfold resolveParent
        rw [List.find?_cons_of_pos _ hr]
        rfl]
      constructor
      · intro h
        exact ⟨[], r, rs, rfl, hr, Option.some_injective _ h, by intro q hq; cases hq⟩
      · rintro ⟨pre, r2, post, heq, hr2, hp, hpre⟩
        cases pre with
        | nil =>
          rw [List.nil_append] at heq
          cases heq
          rw [hp]
        | cons q pre2 =>
          rw [List.cons_append] at heq
          cases heq
          rw [hpre r (List.mem_cons_self r pre2)] at hr
          cases hr

theorem rootSpans_of_unresolved {spans : List RawSpan} {s : RawSpan} (hs : s ∈ spans)
    (h : resolveParent (knownIds spans) s.references = none) : s ∈ rootSpans spans := by
  apply List.mem_filter.mpr
  refine ⟨hs, ?_⟩
  rw [isRootSpan, h]

/-! The claims. -/

/-- C1, counterexample: the subtree-equivalence predicate is not
symmetric.  `exA1` and `exA2` are structurally parallel parents, but
only `exA2`'s child list contains a database-classified span, and the
database-child shortcut inspects only the first argument's children:
`equivalent(exA1, exA2)` recurses (and the leaf names match) while
`equivalent(exA2, exA1)` compares database-child counts (1 vs 0) and
fails. -/
theorem spec_c1_counterexample :
    equivalent defaultTolerances exA1 exA2 false = true ∧
    equivalent defaultTolerances exA2 exA1 false = false := by
  constructor
  · decide
  · decide

/-- C1 (amended): the subtree-equivalence predicate is symmetric for
every pair of spans, every tolerance configuration and both values of
isTop, provided neither compared subtree contains a database-classified
span (the database-child shortcut reads only the first argument's
children, which is the sole source of asymmetry). -/
theorem spec_c1_theorem :
    ∀ (cfg : Config) (a b : SpanTree) (isTop : Bool),
      noDbInTree a = true → noDbInTree b = true →
      equivalent cfg a b isTop = equivalent cfg b a isTop := by
  intro cfg a b isTop ha hb
  unfold equivalent
  cases h1 : compareSubtrees cfg (countTotalSpans a + 1) a b (cond isTop 0 1)
  · cases h2 : compareSubtrees cfg (countTotalSpans b + 1) b a (cond isTop 0 1)
    · rfl
    · exfalso
      have h3 := compareSubtrees_comm_imp cfg _ b a _ hb ha h2
      have hcount := (compareSubtrees_elim h2).2.2.1
      rw [hcount] at h3
      rw [h1] at h3
      cases h3
  · have h3 := compareSubtrees_comm_imp cfg _ a b _ ha hb h1
    have hcount := (compareSubtrees_elim h1).2.2.1
    rw [hcount] at h3
    exact h3.symm

/-- C1, witness: the amended symmetry instantiated at two concrete
database-free subtrees. -/
theorem spec_c1_witness :
    noDbInTree exD1 = true ∧ noDbInTree exD2 = true ∧
    equivalent defaultTolerances exD1 exD2 true = equivalent defaultTolerances exD2 exD1 true :=
  ⟨by decide, by decide, spec_c1_theorem defaultTolerances exD1 exD2 true (by decide) (by decide)⟩

/-- C2, counterexample: no merge pass runs in the sibling clusterer
(`cluster_parallel_subtrees`).  On a sibling group of four spans the
greedy pass forms two surviving clusters of size 2 whose spans all fall
within the start tolerance of each other, and the returned list keeps
them separate instead of merging them into one. -/
theorem spec_c2_counterexample :
    clusterParallelSubtrees defaultTolerances [exH1, exH1b, exH2, exH2b] =
      [[exH1, exH2], [exH1b, exH2b]] ∧
    shouldMergeClusters [exH1.data, exH2.data] [exH1b.data, exH2b.data] = true := by
  constructor
  · decide
  · decide

/-- C2 (amended): the merge pass exists only in the historical variant
(`Test.py`, `cluster_duplicates`), not in the sibling clusterer of
`SuperGrok.py`, which returns the greedy clusters unchanged.  In that
variant, two surviving clusters are merged into one exactly when some
span of one starts within 500000 µs (a fixed constant, not the
configurable start tolerance) of some span of the other; with three or
more clusters the pass is a single forward absorption scan rather than
an exhaustive pairwise merge. -/
theorem spec_c2_theorem :
    ∀ c1 c2 : List SpanData,
      mergeClusters [c1, c2] =
        if shouldMergeClusters c1 c2 then [c1 ++ c2] else [c1, c2] :=
  mergeClusters_pair_eq

/-- C3: every cluster returned by the sibling clusterer has at least 2
members and every member (the candidate root included) satisfies
`equivalent(root, member, isTop := true)`; and members need not be
pairwise equivalent - a concrete returned cluster contains two members
that are not equivalent to each other. -/
theorem spec_c3_theorem :
    (∀ (cfg : Config) (spans : List SpanTree) (c : List SpanTree),
      c ∈ clusterParallelSubtrees cfg spans →
      2 ≤ c.length ∧ ∃ root members, c = root :: members ∧
        ∀ m ∈ c, equivalent cfg root m true = true) ∧
    (∃ (cfg : Config) (spans : List SpanTree) (c : List SpanTree) (m1 m2 : SpanTree),
      c ∈ clusterParallelSubtrees cfg spans ∧ m1 ∈ c ∧ m2 ∈ c ∧
      equivalent cfg m1 m2 true = false) := by
  constructor
  · intro cfg spans c hc
    obtain ⟨root, rest, hsub, hdb, hceq, hlen⟩ := clusterLoopFuel_mem cfg _ _ c hc
    refine ⟨hlen, root, _, hceq, ?_⟩
    intro m hm
    rw [hceq] at hm
    rcases List.mem_cons.mp hm with rfl | hm2
    · have hne : rest.filter (fun t => equivalent cfg m t true) ≠ [] := by
        intro hnil
        rw [hceq, hnil] at hlen
        simp at hlen
      obtain ⟨m0, hm0⟩ := List.exists_mem_of_ne_nil _ hne
      exact equivalent_self_of_match (List.mem_filter.mp hm0).2
    · exact (List.mem_filter.mp hm2).2
  · exact ⟨defaultTolerances, [exF0, exF1, exF2], [exF0, exF1, exF2], exF1, exF2,
      by decide, by decide, by decide, by decide⟩

/-- C3, witness: the guarantee instantiated at a concrete sibling
group that clusters into a single cluster of size 3. -/
theorem spec_c3_witness :
    2 ≤ ([exF0, exF1, exF2] : List SpanTree).length ∧ ∃ root members,
      ([exF0, exF1, exF2] : List SpanTree) = root :: members ∧
      ∀ m ∈ ([exF0, exF1, exF2] : List SpanTree),
        equivalent defaultTolerances root m true = true :=
  spec_c3_theorem.1 defaultTolerances [exF0, exF1, exF2] [exF0, exF1, exF2] (by decide)

/-- C4, counterexample: below the top level no depth check is applied.
`exC1` (height 2) and `exC2` (height 3) compare equivalent at
isTop := false because the database-child shortcut stops the recursion
before the depth difference can surface. -/
theorem spec_c4_counterexample :
    equivalent defaultTolerances exC1 exC2 false = true ∧
    getMaxDepth exC1 = 2 ∧ getMaxDepth exC2 = 3 := by
  refine ⟨by decide, by decide, by decide⟩

/-- C4 (amended): only when isTop is true does equivalence require the
maximum depth under `a` to equal the maximum depth under `b` and this
common depth to be at least 2; at recursive levels (isTop false) no
depth requirement is enforced. -/
theorem spec_c4_theorem :
    ∀ (cfg : Config) (a b : SpanTree),
      equivalent cfg a b true = true →
      getMaxDepth a = getMaxDepth b ∧ 2 ≤ getMaxDepth a := by
  intro cfg a b h
  unfold equivalent at h
  obtain ⟨-, hdep, -, -, -⟩ := compareSubtrees_elim h
  have h2 := hdep rfl
  exact ⟨h2.2, h2.1⟩

/-- C4, witness: the amended depth requirement at a concrete
equivalent pair. -/
theorem spec_c4_witness :
    getMaxDepth exD1 = getMaxDepth exD2 ∧ 2 ≤ getMaxDepth exD1 :=
  spec_c4_theorem defaultTolerances exD1 exD2 (by decide)

/-- C5, counterexample: the database-child branch triggers only on the
first argument's children.  `exB2`'s single child is
database-classified while `exB1`'s is not; the comparator still
recurses and accepts the pair even though the database-child counts
are 0 and 1. -/
theorem spec_c5_counterexample :
    equivalent defaultTolerances exB1 exB2 false = true ∧
    dbChildCount exB1.childList = 0 ∧ dbChildCount exB2.childList = 1 := by
  refine ⟨by decide, by decide, by decide⟩

/-- C5 (amended): whenever the first argument `a` has at least one
database-classified child, no recursion into children occurs and
equivalence requires the database-child counts of the two sides to
match exactly; when only `b` has database-classified children the
comparator recurses pairwise instead. -/
theorem spec_c5_theorem :
    ∀ (cfg : Config) (fuel : Nat) (a b : SpanTree) (d : Nat),
      a.childList.any isDbTree = true →
      compareSubtrees cfg fuel a b d = true →
      dbChildCount a.childList = dbChildCount b.childList := by
  intro cfg fuel a b d hdb h
  cases fuel with
  | zero => cases h
  | succ n =>
    have hdbs : (sortByOperationName a.childList).any isDbTree = true := by
      rw [sortByOperationName_any]
      exact hdb
    rcases compareSubtrees_cases h with ⟨h1, -⟩ | ⟨-, -, hrest⟩
    · rw [h1] at hdbs
      cases hdbs
    · rcases hrest with ⟨-, hcnt⟩ | ⟨hno, -⟩
      · unfold dbChildCount at hcnt ⊢
        rw [sortByOperationName_countP, sortByOperationName_countP] at hcnt
        exact hcnt
      · rw [hdbs] at hno
        cases hno

/-- C5, witness: the amended count requirement at a concrete pair
whose first argument has a database-classified child. -/
theorem spec_c5_witness :
    dbChildCount exC1.childList = dbChildCount exC2.childList :=
  spec_c5_theorem defaultTolerances (countTotalSpans exC1 + 1) exC1 exC2 1 (by decide) (by decide)

/-- C6: at the top level, when the two half-open spans are disjoint,
equivalence bounds the gap by the gap tolerance when it is nonnegative
and otherwise demands an overlap of at least its absolute value; below
the top level no timing check of any kind is applied - zeroing every
start time and duration on both sides and replacing the tolerance
configuration leaves the comparator's value unchanged. -/
theorem spec_c6_theorem :
    (∀ (cfg : Config) (a b : SpanTree),
      equivalent cfg a b true = true → intervalsDisjoint a.data b.data →
        (0 ≤ cfg.gapDifference → intervalGap a.data b.data ≤ cfg.gapDifference) ∧
        (cfg.gapDifference < 0 → -cfg.gapDifference ≤ intervalOverlap a.data b.data)) ∧
    (∀ (cfg cfg2 : Config) (fuel : Nat) (a b : SpanTree) (d : Nat), d ≠ 0 →
      compareSubtrees cfg fuel (eraseTimes a) (eraseTimes b) d =
        compareSubtrees cfg2 fuel a b d) := by
  constructor
  · intro cfg a b h hdisj
    unfold equivalent at h
    obtain ⟨-, -, -, htiming, -⟩ := compareSubtrees_elim h
    obtain ⟨-, hgapf, hoverf, -⟩ := timingOk_elim (htiming rfl)
    constructor
    · intro hg
      unfold intervalGap
      split
      · next h1 => exact (gapCheckFails_false_elim hgapf).1 h1 hg
      next h1 =>
      split
      · next h2 => exact (gapCheckFails_false_elim hgapf).2 h1 h2 hg
      · exact hg
    · intro hneg
      exact overlapCheckFails_false_elim hoverf hneg
  · exact fun cfg cfg2 => compareSubtrees_time_invariant cfg cfg2

/-- C6, witness: the gap bound at a concrete disjoint equivalent pair,
and the timing-independence equation at a concrete non-top level. -/
theorem spec_c6_witness :
    (0 ≤ defaultTolerances.gapDifference →
      intervalGap exD1.data exD2.data ≤ defaultTolerances.gapDifference) ∧
    compareSubtrees defaultTolerances 3 (eraseTimes exD1) (eraseTimes exD2) 1 =
      compareSubtrees ⟨0, -7⟩ 3 exD1 exD2 1 :=
  ⟨(spec_c6_theorem.1 defaultTolerances exD1 exD2 (by decide) (by decide)).1,
   spec_c6_theorem.2 defaultTolerances ⟨0, -7⟩ 3 exD1 exD2 1 (by decide)⟩

/-- C7: at the top level equivalence requires the duration difference
to be at most 100000 µs in all cases, and unless both durations are
below 20000 µs it additionally requires five times the difference to
be at most the larger duration (the exact form of the source's 20%
bound). -/
theorem spec_c7_theorem :
    ∀ (cfg : Config) (a b : SpanTree),
      equivalent cfg a b true = true →
      |(a.data.duration : Int) - (b.data.duration : Int)| ≤ 100000 ∧
      (¬(a.data.duration < 20000 ∧ b.data.duration < 20000) →
        5 * |(a.data.duration : Int) - (b.data.duration : Int)| ≤
          max (a.data.duration : Int) (b.data.duration : Int)) := by
  intro cfg a b h
  unfold equivalent at h
  obtain ⟨-, -, -, htiming, -⟩ := compareSubtrees_elim h
  exact durationCheckOk_elim (timingOk_elim (htiming rfl)).2.2.2

/-- C7, witness: the duration bounds at a concrete equivalent pair
with long durations (100000 µs and 90000 µs). -/
theorem spec_c7_witness :
    |(exE1.data.duration : Int) - (exE2.data.duration : Int)| ≤ 100000 ∧
    (¬(exE1.data.duration < 20000 ∧ exE2.data.duration < 20000) →
      5 * |(exE1.data.duration : Int) - (exE2.data.duration : Int)| ≤
        max (exE1.data.duration : Int) (exE2.data.duration : Int)) :=
  spec_c7_theorem defaultTolerances exE1 exE2 (by decide)

/-- C8, counterexample: the normalizer never scans the statement text
for the token following FROM.  For a database span whose statement is
"SELECT * FROM users" and whose tags carry no explicit table attribute,
the label is "SELECT unknown_table", not the "SELECT users" that
FROM-scanning would produce. -/
theorem spec_c8_counterexample :
    normalizeOperationName (fun _ => "") exDbTags "orig" = "SELECT unknown_table" ∧
    "SELECT unknown_table" ≠ "SELECT users" := by
  refine ⟨by decide, by decide⟩

/-- C8 (amended): for every span whose attributes contain a database
statement and no HTTP method attribute, the normalizer derives the verb
from the statement's leading keyword (SELECT/INSERT/UPDATE/DELETE, else
"QUERY") and takes the table name from the explicit table attribute,
defaulting to "unknown_table" when that attribute is absent - the
statement text is never scanned for a table name; the label is
"VERB TABLE". -/
theorem spec_c8_theorem :
    ∀ (extractPath : String → String) (tags : Tags) (orig : String),
      tagsHas tags "http.request.method" = false →
      tagsHas tags "http.method" = false →
      tagsHas tags "db.statement" = true →
      normalizeOperationName extractPath tags orig =
        dbVerbOfStatement ((tagsGet tags "db.statement").getD "") ++ " " ++ dbTableOfTags tags := by
  intro ep tags orig h1 h2 h3
  unfold normalizeOperationName dbVerbOfStatement dbTableOfTags
  rw [if_neg (by rw [h1, h2]; simp)]
  rw [if_pos h3]
  dsimp only
  split
  · rfl
  split
  · rfl
  split
  · rfl
  split
  · rfl
  · rfl

/-- C8, witness: the amended label equation at a concrete database
span with an explicit table attribute. -/
theorem spec_c8_witness :
    normalizeOperationName (fun _ => "")
        [("db.statement", "UPDATE x SET y"), ("db.sql.table", "tbl")] "o" =
      dbVerbOfStatement
          ((tagsGet [("db.statement", "UPDATE x SET y"), ("db.sql.table", "tbl")]
            "db.statement").getD "") ++ " " ++
        dbTableOfTags [("db.statement", "UPDATE x SET y"), ("db.sql.table", "tbl")] :=
  spec_c8_theorem (fun _ => "") [("db.statement", "UPDATE x SET y"), ("db.sql.table", "tbl")] "o"
    (by decide) (by decide) (by decide)

/-- C9: a span's derived parent is the target of its first CHILD_OF
reference whose target exists among the known spans - resolution is a
total function with the first matching reference winning - and a span
whose references resolve to no parent lands in the roots list. -/
theorem spec_c9_theorem :
    (∀ (known : String → Bool) (refs : List SpanRef) (p : String),
      resolveParent known refs = some p ↔
        ∃ pre r post, refs = pre ++ r :: post ∧ isChildRef known r = true ∧ r.spanID = p ∧
          ∀ q ∈ pre, isChildRef known q = false) ∧
    (∀ (spans : List RawSpan) (s : RawSpan), s ∈ spans →
      resolveParent (knownIds spans) s.references = none → s ∈ rootSpans spans) :=
  ⟨resolveParent_some_iff, fun _ _ hs h => rootSpans_of_unresolved hs h⟩

/-- C9, witness: a span whose only CHILD_OF reference targets an
unknown span resolves to no parent and becomes a root. -/
theorem spec_c9_witness : exRawA ∈ rootSpans exRawSpans :=
  spec_c9_theorem.2 exRawSpans exRawA (by decide) (by decide)

/-- C10: a database-classified span never seeds a cluster - it can
appear in the clusterer's output only as a non-root member of a cluster
whose candidate root is not database-classified, was taken from the
sorted pool before it, and matched it with `equivalent(root, span,
isTop := true)`. -/
theorem spec_c10_theorem :
    ∀ (cfg : Config) (spans : List SpanTree) (s : SpanTree) (c : List SpanTree),
      isDbTree s = true → c ∈ clusterParallelSubtrees cfg spans → s ∈ c →
      ∃ root members, c = root :: members ∧ isDbTree root = false ∧ s ∈ members ∧
        equivalent cfg root s true = true ∧
        List.Sublist [root, s] (sortByStartTime spans) := by
  intro cfg spans s c hdb hc hs
  obtain ⟨root, rest, hsub, hrdb, hceq, hlen⟩ := clusterLoopFuel_mem cfg _ _ c hc
  rw [hceq] at hs
  rcases List.mem_cons.mp hs with rfl | hs2
  · rw [hdb] at hrdb
    cases hrdb
  · have hmf := List.mem_filter.mp hs2
    refine ⟨root, _, hceq, hrdb, hs2, hmf.2, ?_⟩
    refine List.Sublist.trans ?_ hsub
    exact List.Sublist.cons₂ root (List.singleton_sublist.mpr hmf.1)

/-- C10, witness: a database-classified sibling appears in the output
only as the member of the cluster seeded by the earlier non-database
root that matched it. -/
theorem spec_c10_witness :
    ∃ root members, ([exG0, exG1] : List SpanTree) = root :: members ∧ isDbTree root = false ∧
      exG1 ∈ members ∧ equivalent defaultTolerances root exG1 true = true ∧
      List.Sublist [root, exG1] (sortByStartTime [exG0, exG1]) :=
  spec_c10_theorem defaultTolerances [exG0, exG1] exG1 [exG0, exG1]
    (by decide) (by decide) (by decide)
